import Mathlib

/-!
Shallow embedding of the verdaccio-gitlab-oidc-auth plugin
(src/plugin.ts, src/types.ts) and proofs about the specification of its
group derivation, authentication boundary, constructor validation and
issuer-URL normalization.

The JWT payload arrives as unvalidated JSON, so every claim field is
modelled as optional; JavaScript truthiness and the exact string
comparisons of the source are reproduced explicitly.  The cryptographic
part of `jwtVerify` (signature, key fetch, registered-claim checks) is
abstracted as a function from the password to either a payload or a
verification failure; everything downstream of that outcome is embedded
from the source.
-/

namespace GitLabOidcAuth

/-- A primitive JSON value as it may appear in an unvalidated JWT payload
field (the plugin compares `ref_protected` against the string "true", so
the model must be able to hold non-string values as well). -/
inductive JsValue where
  | str (s : String)
  | boolean (b : Bool)
  | num (n : Int)
deriving DecidableEq

/-- JavaScript truthiness of an optional string field: `undefined` and the
empty string are falsy, every other string is truthy. -/
def jsTruthy : Option String → Bool
  | none => false
  | some s => !(s == "")

/-- The GitLab OIDC JWT payload fields read by the plugin
(`GitLabJwtClaims` in src/types.ts).  Every field is optional because the
runtime payload is unvalidated JSON coming out of `jwtVerify`. -/
structure GitLabJwtClaims where
  sub : Option String := none
  ref : Option String := none
  ref_type : Option String := none
  ref_protected : Option JsValue := none
  project_id : Option JsValue := none
  project_path : Option String := none
  namespace_path : Option String := none
  user_login : Option String := none
  pipeline_source : Option String := none
  job_id : Option String := none
deriving DecidableEq

/-- Plugin configuration (`PluginConfig` in src/types.ts); optional fields
model keys absent from the YAML configuration. -/
structure PluginConfig where
  gitlab_url : Option String := none
  audience : Option String := none
  ci_username : Option String := none
  jwks_cache_ttl : Option Nat := none
  project_groups : Option Bool := none
deriving DecidableEq

/-- `DEFAULT_CI_USERNAME` from src/types.ts. -/
def DEFAULT_CI_USERNAME : String := "gitlab-oidc"

/-- `DEFAULT_JWKS_CACHE_TTL` from src/types.ts (seconds). -/
def DEFAULT_JWKS_CACHE_TTL : Nat := 86400

/-- `config.gitlab_url.replace(/\/+$/, "")` from the constructor in
src/plugin.ts: remove the maximal run of trailing slash characters. -/
def stripTrailingSlashes (s : String) : String :=
  String.mk ((s.data.reverse.dropWhile (fun c => c == '/')).reverse)

/-- The immutable state of a constructed `GitLabOidcAuth` plugin instance
(the private readonly fields assigned in the constructor). -/
structure PluginState where
  gitlabUrl : String
  audience : String
  ciUsername : String
  jwksCacheTtl : Nat
  projectGroups : Bool
deriving DecidableEq

/-- The constructor of `GitLabOidcAuth` (src/plugin.ts): throws on a falsy
`gitlab_url` or `audience` (modelled as `Except.error`), otherwise
normalizes the URL, applies the `??` defaults and stores the fields. -/
def mkPlugin (config : PluginConfig) : Except String PluginState :=
  if !(jsTruthy config.gitlab_url) then
    Except.error "verdaccio-gitlab-oidc-auth: gitlab_url is required in plugin configuration"
  else if !(jsTruthy config.audience) then
    Except.error "verdaccio-gitlab-oidc-auth: audience is required in plugin configuration"
  else
    Except.ok
      { gitlabUrl := stripTrailingSlashes (config.gitlab_url.getD "")
        audience := config.audience.getD ""
        ciUsername := config.ci_username.getD DEFAULT_CI_USERNAME
        jwksCacheTtl := config.jwks_cache_ttl.getD DEFAULT_JWKS_CACHE_TTL
        projectGroups := config.project_groups.getD false }

/-- The URL handed to `createRemoteJWKSet` in `verifyAndAuthenticate`. -/
def jwksKeysUrl (st : PluginState) : String :=
  st.gitlabUrl ++ "/oauth/discovery/keys"

/-- The `issuer` option handed to `jwtVerify` in `verifyAndAuthenticate`. -/
def expectedIssuer (st : PluginState) : String :=
  st.gitlabUrl

/-- `deriveGroups` from src/plugin.ts (lines 106-123), written as the
concatenation of its sequential `push` calls: the base group, then the
protected base group when `ref_protected === "true"`, then (when
`project_groups` is enabled) `gitlab:<namespace_path>` and
`gitlab:<project_path>` guarded by JavaScript truthiness. -/
def deriveGroups (projectGroups : Bool) (claims : GitLabJwtClaims) : List String :=
  ["gitlab-ci"]
    ++ (if claims.ref_protected = some (JsValue.str "true") then
          ["gitlab-ci-protected"]
        else [])
    ++ (if projectGroups then
          (if jsTruthy claims.namespace_path then
            ["gitlab:" ++ claims.namespace_path.getD ""]
          else [])
            ++ (if jsTruthy claims.project_path then
                  ["gitlab:" ++ claims.project_path.getD ""]
                else [])
        else [])

/-- The failure stages of token verification (malformed token, bad
algorithm, unknown key, unavailable key source, bad signature,
issuer/audience/expiry mismatch).  The embedding only needs that they are
distinct internal reasons. -/
inductive VerifyFailure where
  | malformedToken
  | unsupportedAlgorithm
  | unknownKey
  | keySourceUnavailable
  | badSignature
  | issuerMismatch
  | audienceMismatch
  | expired
deriving DecidableEq

/-- Result of the Verdaccio auth callback `cb(err, groupsOrFalse)`:
`groups = none` models the `false` sentinel ("not authenticated"). -/
structure CallbackResult where
  err : Option String
  groups : Option (List String)
deriving DecidableEq

/-- `authenticate` from src/plugin.ts (lines 56-76).  The outcome of the
`verifyAndAuthenticate` promise (resolution with a payload, or rejection
at any verification stage) is abstracted as the function `verify` applied
to the password; the non-CI branch, the `.then` branch and the `.catch`
branch are embedded from the source. -/
def authenticate (st : PluginState)
    (verify : String → Except VerifyFailure GitLabJwtClaims)
    (user password : String) : CallbackResult :=
  if user ≠ st.ciUsername then
    { err := none, groups := none }
  else
    match verify password with
    | Except.ok payload =>
        { err := none, groups := some (deriveGroups st.projectGroups payload) }
    | Except.error _ => { err := none, groups := none }

/-- Claims of the `PROTECTED_BRANCH_PUSH` fixture from test/fixtures.ts:
protected branch `main` on project `my-group/my-project`, namespace
`my-group`. -/
def protectedBranchPushClaims : GitLabJwtClaims :=
  { sub := some "project_path:my-group/my-project:ref_type:branch:ref:main"
    ref := some "main"
    ref_type := some "branch"
    ref_protected := some (JsValue.str "true")
    project_id := some (JsValue.str "42")
    project_path := some "my-group/my-project"
    namespace_path := some "my-group"
    user_login := some "ci-bot"
    pipeline_source := some "push"
    job_id := some "10001" }

/-- An unprotected claim set with the multi-segment namespace path
`a/b/c` used by the spec to describe cumulative prefix expansion. -/
def chainClaims : GitLabJwtClaims :=
  { sub := some "project_path:a/b/c/d:ref_type:branch:ref:main"
    ref := some "main"
    ref_type := some "branch"
    ref_protected := some (JsValue.str "false")
    project_id := some (JsValue.num 7)
    project_path := some "a/b/c/d"
    namespace_path := some "a/b/c"
    user_login := some "dev"
    pipeline_source := some "push"
    job_id := some "1" }

/-- A claim set whose `namespace_path` equals its `project_path`. -/
def dupPathClaims : GitLabJwtClaims :=
  { sub := some "project_path:a:ref_type:branch:ref:main"
    ref := some "main"
    ref_type := some "branch"
    ref_protected := some (JsValue.str "false")
    project_id := some (JsValue.num 7)
    project_path := some "a"
    namespace_path := some "a"
    user_login := some "dev"
    pipeline_source := some "push"
    job_id := some "2" }

/-- A verified payload from which every claim field is absent. -/
def emptyClaims : GitLabJwtClaims := {}

/-- A concrete constructed plugin state with the default CI username and
hierarchical derivation enabled. -/
def examplePluginState : PluginState :=
  { gitlabUrl := "https://gitlab.example.com"
    audience := "https://npm.example.com"
    ciUsername := "gitlab-oidc"
    jwksCacheTtl := 86400
    projectGroups := true }

/-- A configuration missing both required keys. -/
def configMissingRequired : PluginConfig := {}

/-- A configuration whose `gitlab_url` carries three trailing slashes. -/
def configWithSlashes : PluginConfig :=
  { gitlab_url := some "https://gitlab.example.com///"
    audience := some "https://npm.example.com" }

/-- The plugin state `mkPlugin configWithSlashes` produces. -/
def stateFromSlashes : PluginState :=
  { gitlabUrl := "https://gitlab.example.com"
    audience := "https://npm.example.com"
    ciUsername := "gitlab-oidc"
    jwksCacheTtl := 86400
    projectGroups := false }

/-- Claims of the `NESTED_SUBGROUP` fixture from test/fixtures.ts:
protected branch on project `my-org/team-a/libs/core` under the nested
namespace `my-org/team-a/libs`. -/
def nestedSubgroupClaims : GitLabJwtClaims :=
  { sub := some "project_path:my-org/team-a/libs/core:ref_type:branch:ref:main"
    ref := some "main"
    ref_type := some "branch"
    ref_protected := some (JsValue.str "true")
    project_id := some (JsValue.str "99")
    project_path := some "my-org/team-a/libs/core"
    namespace_path := some "my-org/team-a/libs"
    user_login := some "ci-bot"
    pipeline_source := some "push"
    job_id := some "10005" }

/-- A verifier model that rejects every token with a signature failure. -/
def failVerify : String → Except VerifyFailure GitLabJwtClaims :=
  fun _ => Except.error VerifyFailure.badSignature

/-! ## Helper lemmas -/

/-- The first element surviving `dropWhile p` falsifies `p`. -/
lemma head?_dropWhile_false (p : Char → Bool) :
    ∀ (l : List Char) (a : Char), (l.dropWhile p).head? = some a → p a = false := by
  intro l
  induction l with
  | nil =>
    intro a h
    simp [List.dropWhile] at h
  | cons x xs ih =>
    intro a h
    by_cases hx : p x = true
    · rw [List.dropWhile_cons_of_pos hx] at h
      exact ih a h
    · rw [List.dropWhile_cons_of_neg hx] at h
      simp at h
      subst h
      simpa using hx

/-- Two strings that already disagree within their first `n` characters
stay different after appending arbitrary suffixes. -/
lemma append_take_ne (a b x y : String) (n : Nat)
    (hna : n ≤ a.data.length) (hnb : n ≤ b.data.length)
    (hne : a.data.take n ≠ b.data.take n) : a ++ x ≠ b ++ y := by
  intro h
  apply hne
  have hd : (a ++ x).data = (b ++ y).data := congrArg String.data h
  rw [String.data_append, String.data_append] at hd
  calc a.data.take n = (a.data ++ x.data).take n :=
        (List.take_append_of_le_length hna).symm
    _ = (b.data ++ y.data).take n := by rw [hd]
    _ = b.data.take n := List.take_append_of_le_length hnb

/-- A string disagreeing with `b` within the first `n` characters and then
extended by a suffix is still different from `b`. -/
lemma append_ne_of_take (a x b : String) (n : Nat)
    (hna : n ≤ a.data.length) (hne : a.data.take n ≠ b.data.take n) :
    a ++ x ≠ b := by
  intro h
  apply hne
  have hd : (a ++ x).data = b.data := congrArg String.data h
  rw [String.data_append] at hd
  calc a.data.take n = (a.data ++ x.data).take n :=
        (List.take_append_of_le_length hna).symm
    _ = b.data.take n := by rw [hd]

/-- A scoped group is never the base group. -/
lemma scopedNeBase (x : String) : "gitlab:" ++ x ≠ "gitlab-ci" :=
  append_ne_of_take "gitlab:" x "gitlab-ci" 7 (by decide) (by decide)

/-- A scoped group is never the protected base group. -/
lemma scopedNeProtected (x : String) : "gitlab:" ++ x ≠ "gitlab-ci-protected" :=
  append_ne_of_take "gitlab:" x "gitlab-ci-protected" 7 (by decide) (by decide)

/-- A scoped group never carries the protected-scoped form. -/
lemma scopedNeProtectedScoped (x y : String) :
    "gitlab:" ++ x ≠ "gitlab-ci-protected:" ++ y :=
  append_take_ne "gitlab:" "gitlab-ci-protected:" x y 7 (by decide) (by decide)
    (by decide)

/-- The base group never carries the protected-scoped form. -/
lemma baseNeProtectedScoped (x : String) : "gitlab-ci" ≠ "gitlab-ci-protected:" ++ x := by
  intro h
  have hl := congrArg String.length h
  rw [String.length_append] at hl
  have hl2 : (9 : Nat) = 20 + x.length := hl
  omega

/-- Scoped group names determine their path suffix. -/
lemma scoped_inj {x y : String} (h : "gitlab:" ++ x = "gitlab:" ++ y) : x = y := by
  have hd := congrArg String.data h
  rw [String.data_append, String.data_append] at hd
  exact congrArg String.mk (List.append_cancel_left hd)

/-- Every element of a derived group list is the base group, the protected
base group (only with `ref_protected === "true"`), or a scoped group. -/
lemma mem_deriveGroups {pg : Bool} {c : GitLabJwtClaims} {g : String}
    (hg : g ∈ deriveGroups pg c) :
    g = "gitlab-ci" ∨
      (g = "gitlab-ci-protected" ∧ c.ref_protected = some (JsValue.str "true")) ∨
      ∃ x, g = "gitlab:" ++ x := by
  unfold deriveGroups at hg
  rcases List.mem_append.1 hg with h | hC
  · rcases List.mem_append.1 h with hA | hB
    · exact Or.inl (by simpa using hA)
    · refine Or.inr (Or.inl ?_)
      by_cases hp : c.ref_protected = some (JsValue.str "true")
      · rw [if_pos hp] at hB
        exact ⟨by simpa using hB, hp⟩
      · rw [if_neg hp] at hB
        simp at hB
  · refine Or.inr (Or.inr ?_)
    by_cases hpg : pg = true
    · rw [if_pos hpg] at hC
      rcases List.mem_append.1 hC with h1 | h1
      · by_cases hn : jsTruthy c.namespace_path = true
        · rw [if_pos hn] at h1
          exact ⟨c.namespace_path.getD "", by simpa using h1⟩
        · rw [if_neg hn] at h1
          simp at h1
      · by_cases hpp : jsTruthy c.project_path = true
        · rw [if_pos hpp] at h1
          exact ⟨c.project_path.getD "", by simpa using h1⟩
        · rw [if_neg hpp] at h1
          simp at h1
    · rw [if_neg hpg] at hC
      simp at hC

/-- `stripTrailingSlashes` leaves no trailing slash behind. -/
lemma stripTrailingSlashes_no_trailing (s : String) :
    (stripTrailingSlashes s).data.getLast? ≠ some '/' := by
  intro h
  unfold stripTrailingSlashes at h
  rw [List.getLast?_reverse] at h
  have := head?_dropWhile_false (fun c => c == '/') s.data.reverse '/' h
  simp at this

/-- The characters removed by `stripTrailingSlashes` are exactly a run of
trailing slashes. -/
lemma stripTrailingSlashes_append_replicate (s : String) :
    ∃ k, s.data = (stripTrailingSlashes s).data ++ List.replicate k '/' := by
  have hsplit :
      s.data.reverse.takeWhile (fun c => c == '/')
        ++ s.data.reverse.dropWhile (fun c => c == '/') = s.data.reverse :=
    List.takeWhile_append_dropWhile (fun c => c == '/') s.data.reverse
  have hrev := congrArg List.reverse hsplit
  rw [List.reverse_append, List.reverse_reverse] at hrev
  have hall : ∀ a ∈ s.data.reverse.takeWhile (fun c => c == '/'), a = '/' := by
    intro a ha
    have := List.mem_takeWhile_imp ha
    simpa using this
  have hrepl :
      s.data.reverse.takeWhile (fun c => c == '/')
        = List.replicate (s.data.reverse.takeWhile (fun c => c == '/')).length '/' :=
    List.eq_replicate_of_mem hall
  refine ⟨(s.data.reverse.takeWhile (fun c => c == '/')).length, ?_⟩
  calc s.data
      = (s.data.reverse.dropWhile (fun c => c == '/')).reverse
          ++ (s.data.reverse.takeWhile (fun c => c == '/')).reverse := hrev.symm
    _ = (stripTrailingSlashes s).data
          ++ (List.replicate (s.data.reverse.takeWhile (fun c => c == '/')).length '/').reverse := by
        rw [← hrepl]
        rfl
    _ = (stripTrailingSlashes s).data
          ++ List.replicate (s.data.reverse.takeWhile (fun c => c == '/')).length '/' := by
        rw [List.reverse_replicate]

/-! ## Claim theorems -/

/-- Claim C1.  Evaluation of the source `deriveGroups` at the protected
branch push scenario (ref_protected "true", project `my-group/my-project`,
namespace `my-group`, hierarchical derivation enabled): the code returns
the four-element list with unprotected `gitlab:`-scoped entries, not the
six-element list with protected-scoped entries that the claim (and the
repository fixtures and README) expect. -/
theorem protected_push_fixture_divergence :
    deriveGroups true protectedBranchPushClaims =
      ["gitlab-ci", "gitlab-ci-protected", "gitlab:my-group",
        "gitlab:my-group/my-project"] ∧
    deriveGroups true protectedBranchPushClaims ≠
      ["gitlab-ci", "gitlab-ci-protected", "gitlab-ci:my-group",
        "gitlab-ci-protected:my-group", "gitlab-ci:my-group/my-project",
        "gitlab-ci-protected:my-group/my-project"] := by
  decide

/-- Claim C2, counterexample.  With hierarchical derivation enabled and
`namespace_path = "a/b/c"`, the code emits no entry for the shorter
prefixes `a` and `a/b`: the derived list is exactly the base group plus
one entry for the full namespace path and one for the full project
path. -/
theorem namespace_chain_not_expanded :
    deriveGroups true chainClaims = ["gitlab-ci", "gitlab:a/b/c", "gitlab:a/b/c/d"] ∧
    "gitlab:a" ∉ deriveGroups true chainClaims ∧
    "gitlab:a/b" ∉ deriveGroups true chainClaims ∧
    "gitlab-ci:a" ∉ deriveGroups true chainClaims ∧
    "gitlab-ci:a/b" ∉ deriveGroups true chainClaims := by
  decide

/-- Claim C2, amended.  With hierarchical derivation enabled and truthy
paths, the deriver appends exactly one entry for the full namespace path
followed by one entry for the full project path after the base groups: no
cumulative prefix expansion and no protected-scoped counterparts. -/
theorem hierarchical_emits_full_paths_only (c : GitLabJwtClaims)
    (hn : jsTruthy c.namespace_path = true) (hpp : jsTruthy c.project_path = true) :
    deriveGroups true c =
      (if c.ref_protected = some (JsValue.str "true") then
        ["gitlab-ci", "gitlab-ci-protected"]
      else ["gitlab-ci"])
        ++ ["gitlab:" ++ c.namespace_path.getD "",
            "gitlab:" ++ c.project_path.getD ""] := by
  by_cases hp : c.ref_protected = some (JsValue.str "true") <;>
    simp [deriveGroups, hp, hn, hpp]

/-- Witness for the amended claim C2 at the nested subgroup fixture. -/
theorem hierarchical_emits_full_paths_only_witness :
    deriveGroups true nestedSubgroupClaims =
      ["gitlab-ci", "gitlab-ci-protected", "gitlab:my-org/team-a/libs",
        "gitlab:my-org/team-a/libs/core"] := by
  rw [hierarchical_emits_full_paths_only nestedSubgroupClaims rfl rfl]
  decide

/-- Claim C3.  Whenever `ref_protected` is anything other than the exact
string "true" (absent, boolean true, "TRUE", ...), the derived group list
contains neither the protected base group nor any protected-scoped entry,
and derivation is total (no error). -/
theorem no_protected_groups_when_not_exactly_true :
    ∀ (pg : Bool) (c : GitLabJwtClaims),
      c.ref_protected ≠ some (JsValue.str "true") →
      "gitlab-ci-protected" ∉ deriveGroups pg c ∧
      ∀ g ∈ deriveGroups pg c, ∀ x : String, g ≠ "gitlab-ci-protected:" ++ x := by
  intro pg c hp
  constructor
  · intro hmem
    rcases mem_deriveGroups hmem with h | ⟨_, htrue⟩ | ⟨x, h⟩
    · exact absurd h (by decide)
    · exact hp htrue
    · exact scopedNeProtected x h.symm
  · intro g hg x
    rcases mem_deriveGroups hg with h | ⟨_, htrue⟩ | ⟨y, h⟩
    · subst h
      exact baseNeProtectedScoped x
    · exact absurd htrue hp
    · subst h
      exact scopedNeProtectedScoped y x

/-- Witness for claim C3: the boolean value `true` (not the string) with
hierarchical derivation enabled yields no protected entries. -/
theorem no_protected_groups_when_not_exactly_true_witness :
    "gitlab-ci-protected" ∉
      deriveGroups true { emptyClaims with ref_protected := some (JsValue.boolean true) } ∧
    ∀ g ∈ deriveGroups true { emptyClaims with ref_protected := some (JsValue.boolean true) },
      ∀ x : String, g ≠ "gitlab-ci-protected:" ++ x :=
  no_protected_groups_when_not_exactly_true true
    { emptyClaims with ref_protected := some (JsValue.boolean true) } (by decide)

/-- Claim C4.  With hierarchical derivation disabled the derived group
list has length 1 or 2 and none of its entries contains a colon. -/
theorem disabled_derivation_small_unscoped :
    ∀ c : GitLabJwtClaims,
      ((deriveGroups false c).length = 1 ∨ (deriveGroups false c).length = 2) ∧
      ∀ g ∈ deriveGroups false c, ':' ∉ g.data := by
  intro c
  by_cases hp : c.ref_protected = some (JsValue.str "true") <;>
    simp [deriveGroups, hp]

/-- Claim C5, counterexample.  The code performs no deduplication: when
`namespace_path` equals `project_path`, the scoped entry is pushed twice
and the derived list has a duplicate. -/
theorem duplicate_groups_when_paths_equal :
    deriveGroups true dupPathClaims = ["gitlab-ci", "gitlab:a", "gitlab:a"] ∧
    ¬ (deriveGroups true dupPathClaims).Nodup := by
  decide

/-- Claim C5, amended.  Provided the interpolated namespace path differs
from the interpolated project path, the derived group list has no
duplicate entries. -/
theorem derive_nodup_of_distinct_paths :
    ∀ (pg : Bool) (c : GitLabJwtClaims),
      c.namespace_path.getD "" ≠ c.project_path.getD "" →
      (deriveGroups pg c).Nodup := by
  intro pg c hne
  have f2 : ∀ x : String, ¬ ("gitlab-ci" = "gitlab:" ++ x) :=
    fun x h => scopedNeBase x h.symm
  have f3 : ∀ x : String, ¬ ("gitlab-ci-protected" = "gitlab:" ++ x) :=
    fun x h => scopedNeProtected x h.symm
  have f4 : ¬ ("gitlab:" ++ c.namespace_path.getD ""
      = "gitlab:" ++ c.project_path.getD "") :=
    fun h => hne (scoped_inj h)
  by_cases hp : c.ref_protected = some (JsValue.str "true") <;>
    cases pg <;>
      by_cases hn : jsTruthy c.namespace_path = true <;>
        by_cases hpp : jsTruthy c.project_path = true <;>
          simp [deriveGroups, hp, hn, hpp, List.nodup_cons, f2, f3, f4]

/-- Witness for the amended claim C5 at the nested subgroup fixture. -/
theorem derive_nodup_of_distinct_paths_witness :
    (deriveGroups true nestedSubgroupClaims).Nodup :=
  derive_nodup_of_distinct_paths true nestedSubgroupClaims (by decide)

/-- Claim C6, counterexample.  A verified payload from which every
required claim field is absent still authenticates: the callback receives
the group list `["gitlab-ci"]`, not the "not authenticated" sentinel. -/
theorem missing_claims_authenticate_succeeds :
    authenticate examplePluginState (fun _ => Except.ok emptyClaims)
      "gitlab-oidc" "a.signed.token" =
      { err := none, groups := some ["gitlab-ci"] } ∧
    (authenticate examplePluginState (fun _ => Except.ok emptyClaims)
      "gitlab-oidc" "a.signed.token").groups ≠ none := by
  decide

/-- Claim C6, amended.  The code performs no required-field presence
validation: a verified payload with every claim field absent is not
rejected — the absent `ref_protected` counts as unprotected, the absent
paths produce no scoped entries, and authentication succeeds with exactly
the base group. -/
theorem missing_claims_yield_base_group_only :
    ∀ (st : PluginState) (password : String),
      authenticate st (fun _ => Except.ok emptyClaims) st.ciUsername password =
        { err := none, groups := some ["gitlab-ci"] } := by
  intro st password
  simp [authenticate, deriveGroups, emptyClaims, jsTruthy]

/-- Claim C7.  A rejection at any verification stage — whichever internal
failure reason it carries — makes `authenticate` report `cb(null, false)`:
the error slot stays empty and the groups slot is the `false` sentinel. -/
theorem verify_failure_collapses_to_not_authenticated :
    ∀ (st : PluginState) (verify : String → Except VerifyFailure GitLabJwtClaims)
      (user password : String) (e : VerifyFailure),
      verify password = Except.error e →
      authenticate st verify user password = { err := none, groups := none } := by
  intro st verify user password e he
  unfold authenticate
  by_cases hu : user ≠ st.ciUsername
  · rw [if_pos hu]
  · rw [if_neg hu, he]

/-- Witness for claim C7 at a concrete bad-signature rejection. -/
theorem verify_failure_collapses_to_not_authenticated_witness :
    authenticate examplePluginState failVerify "gitlab-oidc" "a.signed.token" =
      { err := none, groups := none } :=
  verify_failure_collapses_to_not_authenticated examplePluginState failVerify
    "gitlab-oidc" "a.signed.token" VerifyFailure.badSignature rfl

/-- Claim C8.  A configuration missing `gitlab_url` or missing `audience`
makes the constructor throw: `mkPlugin` yields an error and no plugin
state exists. -/
theorem missing_required_config_fails_construction :
    ∀ config : PluginConfig,
      config.gitlab_url = none ∨ config.audience = none →
      ∃ msg, mkPlugin config = Except.error msg := by
  intro config h
  rcases h with h | h
  · refine ⟨"verdaccio-gitlab-oidc-auth: gitlab_url is required in plugin configuration", ?_⟩
    unfold mkPlugin
    rw [h]
    simp [jsTruthy]
  · by_cases hg : jsTruthy config.gitlab_url = true
    · refine ⟨"verdaccio-gitlab-oidc-auth: audience is required in plugin configuration", ?_⟩
      unfold mkPlugin
      rw [hg, h]
      simp [jsTruthy]
    · refine ⟨"verdaccio-gitlab-oidc-auth: gitlab_url is required in plugin configuration", ?_⟩
      unfold mkPlugin
      rw [Bool.not_eq_true] at hg
      rw [hg]
      simp

/-- Witness for claim C8 at the empty configuration. -/
theorem missing_required_config_fails_construction_witness :
    ∃ msg, mkPlugin configMissingRequired = Except.error msg :=
  missing_required_config_fails_construction configMissingRequired (Or.inl rfl)

/-- Claim C9.  For every successfully constructed plugin, the expected
issuer passed to `jwtVerify` and the prefix of the JWKS fetch URL are the
same trailing-slash-stripped value of the configured `gitlab_url`; the
stripped value ends in no slash and differs from the configured value only
by a run of trailing slashes. -/
theorem issuer_normalized_for_jwks_and_issuer_check :
    ∀ (config : PluginConfig) (st : PluginState),
      mkPlugin config = Except.ok st →
      expectedIssuer st = stripTrailingSlashes (config.gitlab_url.getD "") ∧
      jwksKeysUrl st =
        stripTrailingSlashes (config.gitlab_url.getD "") ++ "/oauth/discovery/keys" ∧
      (stripTrailingSlashes (config.gitlab_url.getD "")).data.getLast? ≠ some '/' ∧
      ∃ k, (config.gitlab_url.getD "").data =
        (stripTrailingSlashes (config.gitlab_url.getD "")).data ++ List.replicate k '/' := by
  intro config st h
  unfold mkPlugin at h
  split at h
  · exact absurd h (by simp)
  · split at h
    · exact absurd h (by simp)
    · injection h with hst
      refine ⟨?_, ?_, stripTrailingSlashes_no_trailing _,
        stripTrailingSlashes_append_replicate _⟩
      · rw [← hst]
        rfl
      · rw [← hst]
        rfl

/-- Witness for claim C9: three trailing slashes are stripped before the
URL feeds both the JWKS endpoint and the issuer check. -/
theorem issuer_normalized_for_jwks_and_issuer_check_witness :
    expectedIssuer stateFromSlashes = "https://gitlab.example.com" ∧
    jwksKeysUrl stateFromSlashes = "https://gitlab.example.com/oauth/discovery/keys" := by
  have h := issuer_normalized_for_jwks_and_issuer_check configWithSlashes stateFromSlashes rfl
  exact ⟨h.1.trans (by decide), h.2.1.trans (by decide)⟩

/-- Claim C10.  Any username other than the configured CI username — the
empty string included — makes `authenticate` pass through with
`cb(null, false)`, and the result does not depend on the verifier at all
(no token verification, key fetch or group derivation is observed). -/
theorem non_ci_username_passes_through :
    ∀ (st : PluginState)
      (v1 v2 : String → Except VerifyFailure GitLabJwtClaims)
      (user password : String),
      user ≠ st.ciUsername →
      authenticate st v1 user password = { err := none, groups := none } ∧
      authenticate st v1 user password = authenticate st v2 user password := by
  intro st v1 v2 user password hu
  constructor <;> simp [authenticate, hu]

/-- Witness for claim C10: a regular username passes through. -/
theorem non_ci_username_passes_through_witness :
    authenticate examplePluginState failVerify "regular-user" "password123" =
      { err := none, groups := none } :=
  (non_ci_username_passes_through examplePluginState failVerify
    (fun _ => Except.ok emptyClaims) "regular-user" "password123" (by decide)).1

end GitLabOidcAuth
